import Mathlib

/-!
Verification of the class-scheduler core (src/unnamed/part_000, the current
version of `ScheduleCalendar.jsx`).

Modelling conventions:
* A JS `Date` instant is a `Nat` counting seconds since an epoch whose day 0
  is a Thursday (as in Unix time), at one-second granularity (the code always
  zeroes milliseconds via `setHours(..., 0)`).
* `Date.getDay`, `Date.getHours/Minutes/Seconds` and `setHours` are modelled
  by arithmetic on that count; `setHours(h, m, s, 0)` keeps the calendar day
  and replaces the time of day, exactly as in JS for in-range components.
* A `"HH:MM[:SS]"` time string split on `:` is modelled by `TimeStr`; a
  missing seconds component is `none` and `ss || 0` becomes `Option.getD 0`
  (for present seconds `ss || 0 = ss`, since `0 || 0 = 0`).
* `row.day_code ? row.day_code.split('') : ['M']` : the empty string is the
  falsy case, giving the default `['M']`.
* The React component's effects are made explicit: `handleEventDrop` takes
  the user's confirm decision (`override`) and the store-write result
  (`storeOk`) as parameters and returns the new event list, the store write
  it issued (if any), and the outcome shown to the user.
-/

namespace ClassScheduler

def secPerDay : Nat := 86400

/-- Calendar day of an instant (days since the epoch). -/
def dayOf (t : Nat) : Nat := t / secPerDay

/-- Time of day of an instant, in seconds since midnight. -/
def todOf (t : Nat) : Nat := t % secPerDay

/-- `Date.getDay`: 0 = Sunday .. 6 = Saturday; epoch day 0 is a Thursday. -/
def getDay (t : Nat) : Nat := (dayOf t + 4) % 7

/-- `Date.getHours`. -/
def getHours (t : Nat) : Nat := todOf t / 3600

/-- `Date.getMinutes`. -/
def getMinutes (t : Nat) : Nat := todOf t % 3600 / 60

/-- `Date.getSeconds`. -/
def getSeconds (t : Nat) : Nat := todOf t % 60

/-- `d.setHours(h, m, s, 0)`: keep the calendar day, replace the time of day. -/
def setHours (t h m s : Nat) : Nat := dayOf t * secPerDay + h * 3600 + m * 60 + s

/-- `getWeekStart`: midnight of the Monday of the week containing `t`
(`diff = (day + 6) % 7` days are subtracted, hours zeroed). -/
def getWeekStart (t : Nat) : Nat := (dayOf t - (getDay t + 6) % 7) * secPerDay

def pad2 (n : Nat) : String := if n < 10 then "0" ++ toString n else toString n

/-- `toTimeString`: a `Date` as zero-padded `"HH:MM:SS"`. -/
def toTimeString (t : Nat) : String :=
  pad2 (getHours t) ++ ":" ++ pad2 (getMinutes t) ++ ":" ++ pad2 (getSeconds t)

/-- `DAY_MAP`: day-code characters to weekday numbers (0 = Sun, 1 = Mon, ...). -/
def DAY_MAP : Char → Option Nat
  | 'M' => some 1
  | 'T' => some 2
  | 'W' => some 3
  | 'R' => some 4
  | 'F' => some 5
  | _ => none

/-- One `"HH:MM[:SS]"` component list as produced by `split(':')`. -/
structure TimeStr where
  h : Nat
  m : Nat
  s : Option Nat
deriving DecidableEq

/-- Seconds since midnight denoted by a time string (`ss || 0` for seconds). -/
def todSecs (ts : TimeStr) : Nat := ts.h * 3600 + ts.m * 60 + ts.s.getD 0

/-- A row of `section_calendar_view`. -/
structure Row where
  section_id : String
  pattern_slot_id : String
  time_slot_id : String
  day_code : String
  start_time : TimeStr
  end_time : TimeStr
  course_code : String
  instructor_name : String
  room_name : String
  grade_level : Nat
deriving DecidableEq

/-- A calendar event as built by `rowsToEvents` (JS `end` is `endT`). -/
structure Event where
  id : String
  sectionId : String
  patternSlotId : String
  timeSlotId : String
  title : String
  professor : String
  room : String
  gradeLevel : String
  start : Nat
  endT : Nat
deriving DecidableEq

/-- `row.day_code ? row.day_code.split('') : ['M']`. -/
def rowCodes (row : Row) : List Char :=
  if row.day_code = "" then ['M'] else row.day_code.toList

/-- The body of the inner `codes.forEach` of `rowsToEvents`: for one day
character, the pushed event, or `none` when `DAY_MAP[code] == null`. -/
def eventOfRowCode (monday : Nat) (row : Row) (code : Char) : Option Event :=
  match DAY_MAP code with
  | none => none
  | some weekday =>
    let baseDate := monday + (weekday - 1) * secPerDay
    some
      { id := row.section_id ++ "-" ++ String.singleton code
        sectionId := row.section_id
        patternSlotId := row.pattern_slot_id
        timeSlotId := row.time_slot_id
        title := row.course_code
        professor := row.instructor_name
        room := row.room_name
        gradeLevel := toString row.grade_level
        start := setHours baseDate row.start_time.h row.start_time.m
          (row.start_time.s.getD 0)
        endT := setHours baseDate row.end_time.h row.end_time.m
          (row.end_time.s.getD 0) }

/-- The events one row contributes. -/
def rowEvents (monday : Nat) (row : Row) : List Event :=
  (rowCodes row).filterMap (eventOfRowCode monday row)

/-- `rowsToEvents`, anchored at `monday = getWeekStart(now)`. -/
def rowsToEvents (now : Nat) (rows : List Row) : List Event :=
  rows.flatMap (rowEvents (getWeekStart now))

/-- `timesOverlap`. -/
def timesOverlap (startA endA startB endB : Nat) : Bool :=
  decide (startA < endB) && decide (endA > startB)

/-- The conflict entries one `other` event contributes inside the
`events.forEach` of `handleEventDrop`. -/
def entriesFor (movedEvent other : Event) : List String :=
  if other.id = movedEvent.id then []
  else if timesOverlap movedEvent.start movedEvent.endT other.start other.endT then
    (if movedEvent.professor = other.professor then
      ["Professor conflict: " ++ movedEvent.professor ++ " also has \"" ++
        other.title ++ "\" at this time."]
    else []) ++
    (if movedEvent.room = other.room then
      ["Room conflict: " ++ movedEvent.room ++ " is already used by \"" ++
        other.title ++ "\" at this time."]
    else []) ++
    (if movedEvent.gradeLevel = other.gradeLevel then
      ["Grade-level conflict: " ++ movedEvent.gradeLevel ++ " already has \"" ++
        other.title ++ "\" at this time."]
    else [])
  else []

/-- The `conflicts` array accumulated over the full `events` state. -/
def computeConflicts (events : List Event) (movedEvent : Event) : List String :=
  events.flatMap (entriesFor movedEvent)

/-- The payload of the `onEventDrop` callback. -/
structure DropArgs where
  event : Event
  start : Nat
  endT : Nat
  isAllDay : Bool

/-- `movedEvent = { ...event, start, end, allDay: isAllDay }` (the `allDay`
flag is never read afterwards). -/
def movedOf (args : DropArgs) : Event :=
  { args.event with start := args.start, endT := args.endT }

/-- What `handleEventDrop` did, as shown to the user. -/
inductive DropOutcome where
  | rejectedDay
  | cancelled (conflicts : List String)
  | storeFailed (conflicts : List String)
  | committed (conflicts : List String)
deriving DecidableEq

/-- The `time_slot` update issued to the store. -/
structure StoreWrite where
  timeSlotId : String
  start_time : String
  end_time : String
deriving DecidableEq

/-- The store write `handleEventDrop` issues for a drop. -/
def writeOf (args : DropArgs) : StoreWrite :=
  { timeSlotId := args.event.timeSlotId
    start_time := toTimeString args.start
    end_time := toTimeString args.endT }

structure DropResult where
  events : List Event
  storeWrite : Option StoreWrite
  outcome : DropOutcome
deriving DecidableEq

/-- The `setEvents(prev => prev.map(...))` updater run after a successful
store write (`ss || 0 = ss` and `es || 0 = es` since the getters return
`0..59` and `0 || 0 = 0`). -/
def commitEvents (events : List Event) (tsId : String) (start endT : Nat) :
    List Event :=
  let sh := getHours start
  let sm := getMinutes start
  let ss := getSeconds start
  let eh := getHours endT
  let em := getMinutes endT
  let es := getSeconds endT
  events.map fun e =>
    if e.timeSlotId ≠ tsId then e
    else
      { e with
        start := setHours e.start sh sm ss
        endT := setHours e.endT eh em es }

/-- `handleEventDrop`, with the `window.confirm` answer (`override`) and the
store-write result (`storeOk`) passed in explicitly. -/
def handleEventDrop (events : List Event) (args : DropArgs)
    (override : Bool) (storeOk : Bool) : DropResult :=
  if getDay args.event.start ≠ getDay args.start then
    { events := events, storeWrite := none, outcome := .rejectedDay }
  else
    let movedEvent := movedOf args
    let conflicts := computeConflicts events movedEvent
    if conflicts.length > 0 && !override then
      { events := events, storeWrite := none, outcome := .cancelled conflicts }
    else if !storeOk then
      { events := events, storeWrite := some (writeOf args)
        outcome := .storeFailed conflicts }
    else
      { events := commitEvents events args.event.timeSlotId args.start args.endT
        storeWrite := some (writeOf args)
        outcome := .committed conflicts }

/-- The `filteredEvents` predicate (empty selection array = show all). -/
def eventPasses (professorFilter roomFilter gradeFilter : List String)
    (e : Event) : Bool :=
  if decide (professorFilter.length > 0) && !(professorFilter.contains e.professor) then
    false
  else if decide (roomFilter.length > 0) && !(roomFilter.contains e.room) then
    false
  else if decide (gradeFilter.length > 0) && !(gradeFilter.contains e.gradeLevel) then
    false
  else
    true

/-- `filteredEvents = events.filter(...)`. -/
def filteredEvents (professorFilter roomFilter gradeFilter : List String)
    (events : List Event) : List Event :=
  events.filter (eventPasses professorFilter roomFilter gradeFilter)

/-! Sample data used by the concrete witnesses: day 11 of the model epoch is
a Monday (`(11 + 4) % 7 = 1`), so `950400 = 11 * 86400` is a Monday midnight.
`evA`/`evAW` are the Monday and Wednesday occurrences of one section sharing
time slot `ts1` (09:00-10:00); `evB` is another section's Monday 09:30-10:30
occurrence in the same room with a different professor. -/

def evA : Event :=
  { id := "1-M", sectionId := "1", patternSlotId := "p1", timeSlotId := "ts1"
    title := "CS101", professor := "Lee", room := "101", gradeLevel := "1"
    start := 950400 + 9 * 3600, endT := 950400 + 10 * 3600 }

def evAW : Event :=
  { id := "1-W", sectionId := "1", patternSlotId := "p1", timeSlotId := "ts1"
    title := "CS101", professor := "Lee", room := "101", gradeLevel := "1"
    start := 1123200 + 9 * 3600, endT := 1123200 + 10 * 3600 }

def evB : Event :=
  { id := "2-M", sectionId := "2", patternSlotId := "p2", timeSlotId := "ts2"
    title := "CS202", professor := "Kim", room := "101", gradeLevel := "2"
    start := 950400 + 9 * 3600 + 1800, endT := 950400 + 10 * 3600 + 1800 }

/-! ### Helper lemmas -/

theorem timesOverlap_eq_false_of (a b c d : Nat) (h : b ≤ c ∨ d ≤ a) :
    timesOverlap a b c d = false := by
  unfold timesOverlap
  rcases h with h | h <;> simp only [Bool.and_eq_false_iff, decide_eq_false_iff_not] <;> omega

theorem entriesFor_eq_nil_of_no_overlap (m o : Event)
    (h : timesOverlap m.start m.endT o.start o.endT = false) :
    entriesFor m o = [] := by
  unfold entriesFor
  by_cases hid : o.id = m.id <;> simp [hid, h]

/-! ### C7 : the overlap predicate -/

/-- C7 counterexample: the zero-duration interval `[5, 5)` does overlap
`[0, 10)` under `timesOverlap`, refuting "a zero-duration interval never
overlaps any interval". -/
theorem timesOverlap_zero_duration_overlaps :
    timesOverlap 5 5 0 10 = true := by decide

/-- C7 (amended): `timesOverlap` is the half-open test `(a < d) && (b > c)`,
symmetric under swapping the two intervals, and false whenever `b ≤ c` or
`d ≤ a`; a zero-duration interval overlaps another interval exactly when its
point lies strictly inside it (so it can overlap). -/
theorem timesOverlap_spec :
    (∀ a b c d : Nat, timesOverlap a b c d = (decide (a < d) && decide (b > c))) ∧
    (∀ a b c d : Nat, timesOverlap a b c d = timesOverlap c d a b) ∧
    (∀ a b c d : Nat, b ≤ c ∨ d ≤ a → timesOverlap a b c d = false) ∧
    (∀ a c d : Nat, timesOverlap a a c d = (decide (c < a) && decide (a < d))) ∧
    (∀ a b c : Nat, timesOverlap a b c c = (decide (a < c) && decide (c < b))) := by
  refine ⟨fun a b c d => rfl, fun a b c d => Bool.and_comm _ _,
    fun a b c d h => timesOverlap_eq_false_of a b c d h,
    fun a c d => Bool.and_comm _ _, fun a b c => rfl⟩

/-- Witness for C7's conditional conjunct at a concrete input. -/
theorem timesOverlap_spec_witness : timesOverlap 3 4 4 9 = false :=
  timesOverlap_spec.2.2.1 3 4 4 9 (Or.inl (by decide))

/-! ### C4 : day-of-week validation -/

/-- C4: a drop whose proposed start falls on a different weekday than the
original start is rejected with the day-change notice: the result carries the
unchanged event list, no store write, and the `rejectedDay` outcome, for every
confirm answer and store behaviour. -/
theorem handleEventDrop_rejects_day_change
    (events : List Event) (args : DropArgs) (override storeOk : Bool)
    (h : getDay args.event.start ≠ getDay args.start) :
    handleEventDrop events args override storeOk =
      { events := events, storeWrite := none, outcome := .rejectedDay } := by
  simp [handleEventDrop, h]

/-- Witness for C4: moving `evA` (a Monday) to Tuesday 09:00 is rejected even
with a positive confirm answer and a store that would succeed. -/
theorem handleEventDrop_rejects_day_change_witness :
    handleEventDrop [evA] ⟨evA, 1036800 + 9 * 3600, 1036800 + 10 * 3600, false⟩ true true =
      { events := [evA], storeWrite := none, outcome := .rejectedDay } :=
  handleEventDrop_rejects_day_change [evA] _ true true (by decide)

/-! ### Commit-path helper lemmas -/

theorem handleEventDrop_eq_commit (events : List Event) (args : DropArgs)
    (override : Bool)
    (hday : getDay args.event.start = getDay args.start)
    (hok : computeConflicts events (movedOf args) = [] ∨ override = true) :
    handleEventDrop events args override true =
      { events := commitEvents events args.event.timeSlotId args.start args.endT
        storeWrite := some (writeOf args)
        outcome := .committed (computeConflicts events (movedOf args)) } := by
  unfold handleEventDrop
  rw [if_neg (by simp [hday])]
  rcases hok with h | h <;> simp [h]

theorem handleEventDrop_eq_storeFailed (events : List Event) (args : DropArgs)
    (override : Bool)
    (hday : getDay args.event.start = getDay args.start)
    (hok : computeConflicts events (movedOf args) = [] ∨ override = true) :
    handleEventDrop events args override false =
      { events := events, storeWrite := some (writeOf args)
        outcome := .storeFailed (computeConflicts events (movedOf args)) } := by
  unfold handleEventDrop
  rw [if_neg (by simp [hday])]
  rcases hok with h | h <;> simp [h]

theorem commitEvents_eq_map (events : List Event) (tsId : String)
    (start endT : Nat) :
    commitEvents events tsId start endT =
      events.map (fun e =>
        if e.timeSlotId = tsId then
          { e with start := dayOf e.start * secPerDay + todOf start
                   endT := dayOf e.endT * secPerDay + todOf endT }
        else e) := by
  unfold commitEvents
  refine List.map_congr_left fun e _ => ?_
  by_cases h : e.timeSlotId = tsId
  · simp only [h, ne_eq, not_true_eq_false, if_false, if_true, ite_true]
    have hs : setHours e.start (getHours start) (getMinutes start) (getSeconds start) =
        dayOf e.start * secPerDay + todOf start := by
      unfold setHours getHours getMinutes getSeconds dayOf todOf secPerDay
      omega
    have he : setHours e.endT (getHours endT) (getMinutes endT) (getSeconds endT) =
        dayOf e.endT * secPerDay + todOf endT := by
      unfold setHours getHours getMinutes getSeconds dayOf todOf secPerDay
      omega
    rw [hs, he]
  · simp [h]

/-! ### C2 : the confirmation gate -/

/-- C2: when the conflict list of a day-preserving move is non-empty, a
declined confirm aborts with no side effects (event list and store both
untouched, the conflicts having been presented), an accepted confirm proceeds
to the store write; when the conflict list is empty the result does not
depend on the confirm answer at all. -/
theorem handleEventDrop_confirm_gate (events : List Event) (args : DropArgs)
    (hday : getDay args.event.start = getDay args.start) :
    (computeConflicts events (movedOf args) ≠ [] →
      ∀ storeOk, handleEventDrop events args false storeOk =
        { events := events, storeWrite := none
          outcome := .cancelled (computeConflicts events (movedOf args)) }) ∧
    (computeConflicts events (movedOf args) ≠ [] →
      ∀ storeOk, (handleEventDrop events args true storeOk).storeWrite =
        some (writeOf args)) ∧
    (computeConflicts events (movedOf args) = [] →
      ∀ storeOk override override',
        handleEventDrop events args override storeOk =
          handleEventDrop events args override' storeOk) := by
  refine ⟨?_, ?_, ?_⟩
  · intro hne storeOk
    unfold handleEventDrop
    rw [if_neg (by simp [hday])]
    have hlen : 0 < (computeConflicts events (movedOf args)).length :=
      List.length_pos.mpr hne
    simp [hlen]
  · intro hne storeOk
    unfold handleEventDrop
    rw [if_neg (by simp [hday])]
    cases storeOk <;> simp
  · intro h0 storeOk override override'
    have hnd : ¬ (getDay args.event.start ≠ getDay args.start) := by simp [hday]
    unfold handleEventDrop
    rw [if_neg hnd, if_neg hnd]
    simp [h0]

/-- Witness for C2: moving `evA` onto `evB`'s slot (same Monday) produces a
room conflict, and a declined confirm leaves the events and store untouched. -/
theorem handleEventDrop_confirm_gate_witness :
    handleEventDrop [evA, evAW, evB] ⟨evA, 950400 + 9 * 3600 + 1800, 950400 + 10 * 3600 + 1800, false⟩ false true =
      { events := [evA, evAW, evB], storeWrite := none
        outcome := .cancelled (computeConflicts [evA, evAW, evB]
          (movedOf ⟨evA, 950400 + 9 * 3600 + 1800, 950400 + 10 * 3600 + 1800, false⟩)) } :=
  (handleEventDrop_confirm_gate [evA, evAW, evB] _ (by decide)).1 (by decide) true

/-! ### C1 : commit updates exactly the shared time slot -/

/-- C1: on a validated move (same weekday) that passes the confirm gate and
whose store write succeeds, the committed event list is exactly the old list
with every event sharing the moved event's time-slot identity given the new
start/end time of day on its own calendar day, and every other event kept
as-is; the second conjunct records that the rewritten instants indeed keep
the day and carry the new time of day. -/
theorem handleEventDrop_commit_updates_timeslot (events : List Event)
    (args : DropArgs) (override : Bool)
    (hday : getDay args.event.start = getDay args.start)
    (hok : computeConflicts events (movedOf args) = [] ∨ override = true) :
    (handleEventDrop events args override true).events =
      events.map (fun e =>
        if e.timeSlotId = args.event.timeSlotId then
          { e with start := dayOf e.start * secPerDay + todOf args.start
                   endT := dayOf e.endT * secPerDay + todOf args.endT }
        else e) ∧
    (∀ t s : Nat, dayOf (dayOf t * secPerDay + todOf s) = dayOf t ∧
      todOf (dayOf t * secPerDay + todOf s) = todOf s) := by
  constructor
  · rw [handleEventDrop_eq_commit events args override hday hok]
    exact commitEvents_eq_map events args.event.timeSlotId args.start args.endT
  · intro t s
    unfold dayOf todOf secPerDay
    omega

/-- Witness for C1: a clean move of `evA` to Monday 11:00-12:00 updates both
`evA` (Monday) and its Wednesday sibling `evAW` to 11:00-12:00 on their own
days and leaves `evB` untouched. -/
theorem handleEventDrop_commit_updates_timeslot_witness :
    (handleEventDrop [evA, evAW, evB] ⟨evA, 950400 + 11 * 3600, 950400 + 12 * 3600, false⟩ false true).events =
      List.map (fun e =>
        if e.timeSlotId = evA.timeSlotId then
          { e with start := dayOf e.start * secPerDay + todOf (950400 + 11 * 3600)
                   endT := dayOf e.endT * secPerDay + todOf (950400 + 12 * 3600) }
        else e) [evA, evAW, evB] :=
  (handleEventDrop_commit_updates_timeslot [evA, evAW, evB]
    ⟨evA, 950400 + 11 * 3600, 950400 + 12 * 3600, false⟩ false (by decide)
    (Or.inl (by decide))).1

/-! ### C6 : store failure leaves state untouched -/

/-- C6: when the store write of a validated, confirm-passed move fails, the
coordinator returns the event list unchanged, surfaces the failure outcome,
and the single write it issued is the only one (no optimistic update, no
retry). -/
theorem handleEventDrop_store_failure (events : List Event) (args : DropArgs)
    (override : Bool)
    (hday : getDay args.event.start = getDay args.start)
    (hok : computeConflicts events (movedOf args) = [] ∨ override = true) :
    handleEventDrop events args override false =
      { events := events, storeWrite := some (writeOf args)
        outcome := .storeFailed (computeConflicts events (movedOf args)) } :=
  handleEventDrop_eq_storeFailed events args override hday hok

/-- Witness for C6: the clean move of `evA` against a failing store leaves
all three events exactly as they were. -/
theorem handleEventDrop_store_failure_witness :
    handleEventDrop [evA, evAW, evB] ⟨evA, 950400 + 11 * 3600, 950400 + 12 * 3600, false⟩ false false =
      { events := [evA, evAW, evB]
        storeWrite := some (writeOf ⟨evA, 950400 + 11 * 3600, 950400 + 12 * 3600, false⟩)
        outcome := .storeFailed (computeConflicts [evA, evAW, evB]
          (movedOf ⟨evA, 950400 + 11 * 3600, 950400 + 12 * 3600, false⟩)) } :=
  handleEventDrop_store_failure [evA, evAW, evB] _ false (by decide) (Or.inl (by decide))

/-! ### C3 : conflict detection over the full set -/

/-- C3: the conflict list is accumulated over the full event set `events`
(the one `handleEventDrop` closes over, not the filtered projection), each
event contributing its `entriesFor` block: the candidate itself (matched by
identity) contributes nothing, a non-overlapping event contributes nothing,
and an overlapping distinct event contributes exactly one entry per shared
attribute among professor, room and grade level — hence at most three. -/
theorem computeConflicts_spec (events : List Event) (moved : Event) :
    computeConflicts events moved = events.flatMap (entriesFor moved) ∧
    (∀ other, other.id = moved.id → entriesFor moved other = []) ∧
    (∀ other, timesOverlap moved.start moved.endT other.start other.endT = false →
      entriesFor moved other = []) ∧
    (∀ other, other.id ≠ moved.id →
      timesOverlap moved.start moved.endT other.start other.endT = true →
      (entriesFor moved other).length =
        (if moved.professor = other.professor then 1 else 0) +
        (if moved.room = other.room then 1 else 0) +
        (if moved.gradeLevel = other.gradeLevel then 1 else 0)) ∧
    (∀ other, (entriesFor moved other).length ≤ 3) := by
  refine ⟨rfl, ?_, ?_, ?_, ?_⟩
  · intro other h
    simp [entriesFor, h]
  · intro other h
    exact entriesFor_eq_nil_of_no_overlap moved other h
  · intro other hid hov
    unfold entriesFor
    rw [if_neg hid, if_pos hov]
    by_cases hp : moved.professor = other.professor <;>
      by_cases hr : moved.room = other.room <;>
      by_cases hg : moved.gradeLevel = other.gradeLevel <;>
      simp [hp, hr, hg]
  · intro other
    unfold entriesFor
    by_cases hid : other.id = moved.id
    · simp [hid]
    · rw [if_neg hid]
      by_cases hov : timesOverlap moved.start moved.endT other.start other.endT <;>
        by_cases hp : moved.professor = other.professor <;>
        by_cases hr : moved.room = other.room <;>
        by_cases hg : moved.gradeLevel = other.gradeLevel <;>
        simp [hov, hp, hr, hg]

/-- Witness for C3's per-attribute count: `evA` moved onto `evB`'s Monday
slot overlaps `evB` and shares only the room, giving exactly one entry. -/
theorem computeConflicts_spec_witness :
    (entriesFor (movedOf ⟨evA, 950400 + 9 * 3600 + 1800, 950400 + 10 * 3600 + 1800, false⟩) evB).length =
      (if (movedOf ⟨evA, 950400 + 9 * 3600 + 1800, 950400 + 10 * 3600 + 1800, false⟩).professor = evB.professor then 1 else 0) +
      (if (movedOf ⟨evA, 950400 + 9 * 3600 + 1800, 950400 + 10 * 3600 + 1800, false⟩).room = evB.room then 1 else 0) +
      (if (movedOf ⟨evA, 950400 + 9 * 3600 + 1800, 950400 + 10 * 3600 + 1800, false⟩).gradeLevel = evB.gradeLevel then 1 else 0) :=
  (computeConflicts_spec []
    (movedOf ⟨evA, 950400 + 9 * 3600 + 1800, 950400 + 10 * 3600 + 1800, false⟩)).2.2.2.1
    evB (by decide) (by decide)

/-! ### Expansion helper lemmas -/

theorem DAY_MAP_bounds (c : Char) (w : Nat) (hc : DAY_MAP c = some w) :
    1 ≤ w ∧ w ≤ 5 := by
  unfold DAY_MAP at hc
  split at hc <;> simp at hc <;> omega

theorem DAY_MAP_inj (c₁ c₂ : Char) (w : Nat) (h₁ : DAY_MAP c₁ = some w)
    (h₂ : DAY_MAP c₂ = some w) : c₁ = c₂ := by
  unfold DAY_MAP at h₁ h₂
  split at h₁ <;> split at h₂ <;> simp_all <;> omega

theorem eventOfRowCode_none (monday : Nat) (row : Row) (c : Char)
    (hc : DAY_MAP c = none) : eventOfRowCode monday row c = none := by
  unfold eventOfRowCode
  rw [hc]

theorem eventOfRowCode_some (k : Nat) (row : Row) (c : Char) (w : Nat)
    (hc : DAY_MAP c = some w) :
    eventOfRowCode (k * secPerDay) row c = some
      { id := row.section_id ++ "-" ++ String.singleton c
        sectionId := row.section_id
        patternSlotId := row.pattern_slot_id
        timeSlotId := row.time_slot_id
        title := row.course_code
        professor := row.instructor_name
        room := row.room_name
        gradeLevel := toString row.grade_level
        start := k * secPerDay + (w - 1) * secPerDay + todSecs row.start_time
        endT := k * secPerDay + (w - 1) * secPerDay + todSecs row.end_time } := by
  have hs : setHours (k * secPerDay + (w - 1) * secPerDay) row.start_time.h
      row.start_time.m (row.start_time.s.getD 0) =
      k * secPerDay + (w - 1) * secPerDay + todSecs row.start_time := by
    unfold setHours dayOf secPerDay todSecs
    omega
  have he : setHours (k * secPerDay + (w - 1) * secPerDay) row.end_time.h
      row.end_time.m (row.end_time.s.getD 0) =
      k * secPerDay + (w - 1) * secPerDay + todSecs row.end_time := by
    unfold setHours dayOf secPerDay todSecs
    omega
  unfold eventOfRowCode
  rw [hc]
  simp only [hs, he]

theorem length_filterMap_eventOfRowCode (monday : Nat) (row : Row)
    (l : List Char) :
    (l.filterMap (eventOfRowCode monday row)).length =
      (l.filter (fun c => (DAY_MAP c).isSome)).length := by
  induction l with
  | nil => rfl
  | cons c t ih =>
    cases hc : DAY_MAP c with
    | none =>
      simp [List.filterMap_cons, List.filter_cons, eventOfRowCode_none monday row c hc, hc, ih]
    | some w =>
      have he : ∃ e, eventOfRowCode monday row c = some e := by
        unfold eventOfRowCode
        rw [hc]
        exact ⟨_, rfl⟩
      obtain ⟨e, he⟩ := he
      simp [List.filterMap_cons, List.filter_cons, he, hc, ih]

theorem getWeekStart_eq_mul (now : Nat) :
    getWeekStart now = (dayOf now - (getDay now + 6) % 7) * secPerDay := rfl

/-! ### C5 : occurrence expansion -/

/-- C5 counterexample: a row whose day-pattern code is the single
unrecognized character `"X"` has code length 1 but expands to 0 occurrences,
refuting "a day-pattern code of length N produces exactly N occurrences". -/
theorem rowsToEvents_length_counterexample :
    (Row.day_code
      { section_id := "9", pattern_slot_id := "p9", time_slot_id := "t9"
        day_code := "X", start_time := ⟨9, 0, some 0⟩, end_time := ⟨10, 0, some 0⟩
        course_code := "C", instructor_name := "I", room_name := "R"
        grade_level := 1 }).length = 1 ∧
    (rowsToEvents 950400
      [{ section_id := "9", pattern_slot_id := "p9", time_slot_id := "t9"
         day_code := "X", start_time := ⟨9, 0, some 0⟩, end_time := ⟨10, 0, some 0⟩
         course_code := "C", instructor_name := "I", room_name := "R"
         grade_level := 1 }]).length = 0 := by
  constructor <;> rfl

/-- C5 (amended): expansion of one row yields exactly one occurrence per
recognized character of its day-pattern code (so exactly N when all N
characters are recognized; unrecognized characters are silently skipped); an
empty code falls back to the single default day `'M'`; each produced
occurrence is anchored at the current week's Monday plus the character's
weekday offset and carries the row's start/end time of day, with a missing
seconds component defaulting to zero; for a realistic `now` and an in-range
time of day the occurrence's start indeed falls on the mapped weekday. -/
theorem rowsToEvents_expansion (now : Nat) (row : Row) :
    (rowsToEvents now [row]).length =
      ((rowCodes row).filter (fun c => (DAY_MAP c).isSome)).length ∧
    (row.day_code ≠ "" → (∀ c ∈ row.day_code.toList, (DAY_MAP c).isSome = true) →
      (rowsToEvents now [row]).length = row.day_code.length) ∧
    (row.day_code = "" →
      rowsToEvents now [row] = (eventOfRowCode (getWeekStart now) row 'M').toList) ∧
    (∀ c w, DAY_MAP c = some w →
      eventOfRowCode (getWeekStart now) row c = some
        { id := row.section_id ++ "-" ++ String.singleton c
          sectionId := row.section_id
          patternSlotId := row.pattern_slot_id
          timeSlotId := row.time_slot_id
          title := row.course_code
          professor := row.instructor_name
          room := row.room_name
          gradeLevel := toString row.grade_level
          start := getWeekStart now + (w - 1) * secPerDay + todSecs row.start_time
          endT := getWeekStart now + (w - 1) * secPerDay + todSecs row.end_time }) ∧
    (row.start_time.s = none →
      todSecs row.start_time = row.start_time.h * 3600 + row.start_time.m * 60) ∧
    (6 * secPerDay ≤ now → todSecs row.start_time < secPerDay →
      ∀ c w e, DAY_MAP c = some w →
        eventOfRowCode (getWeekStart now) row c = some e →
        getDay e.start = w) := by
  refine ⟨?_, ?_, ?_, ?_, ?_, ?_⟩
  · simp only [rowsToEvents, List.flatMap_cons, List.flatMap_nil, List.append_nil, rowEvents]
    exact length_filterMap_eventOfRowCode (getWeekStart now) row (rowCodes row)
  · intro hne hall
    simp only [rowsToEvents, List.flatMap_cons, List.flatMap_nil, List.append_nil, rowEvents]
    rw [length_filterMap_eventOfRowCode (getWeekStart now) row (rowCodes row)]
    unfold rowCodes
    rw [if_neg hne, List.filter_eq_self.mpr (by simpa using hall)]
    rfl
  · intro h0
    simp only [rowsToEvents, List.flatMap_cons, List.flatMap_nil, List.append_nil, rowEvents]
    unfold rowCodes
    rw [if_pos h0]
    cases hm : eventOfRowCode (getWeekStart now) row 'M' <;>
      simp [List.filterMap_cons, hm]
  · intro c w hc
    rw [getWeekStart_eq_mul now]
    exact eventOfRowCode_some _ row c w hc
  · intro h
    simp [todSecs, h]
  · intro hnow htod c w e hc he
    obtain ⟨hw1, hw5⟩ := DAY_MAP_bounds c w hc
    rw [getWeekStart_eq_mul now, eventOfRowCode_some _ row c w hc] at he
    have he' := (Option.some.injEq _ _).mp he
    have hstart : e.start =
        (dayOf now - (getDay now + 6) % 7) * secPerDay + (w - 1) * secPerDay +
          todSecs row.start_time := by
      rw [← he']
    rw [hstart]
    unfold getDay dayOf secPerDay at *
    omega

/-- Witness for C5's conditional conjuncts at a concrete input: a Wednesday
row `"W"` with an all-recognized code of length 1 expands to exactly one
occurrence, whose start falls on weekday 3. -/
theorem rowsToEvents_expansion_witness :
    (rowsToEvents 950400
      [{ section_id := "5", pattern_slot_id := "p5", time_slot_id := "t5"
         day_code := "W", start_time := ⟨9, 30, none⟩, end_time := ⟨10, 30, none⟩
         course_code := "C", instructor_name := "I", room_name := "R"
         grade_level := 3 }]).length =
      ("W" : String).length :=
  (rowsToEvents_expansion 950400
    { section_id := "5", pattern_slot_id := "p5", time_slot_id := "t5"
      day_code := "W", start_time := ⟨9, 30, none⟩, end_time := ⟨10, 30, none⟩
      course_code := "C", instructor_name := "I", room_name := "R"
      grade_level := 3 }).2.1 (by decide) (by decide)

/-! ### C8 : occurrence identities -/

/-- The (section identity, recognized day character) pairs of an input, in
expansion order. -/
def sectionDayPairs (rows : List Row) : List (String × Char) :=
  rows.flatMap (fun r =>
    ((rowCodes r).filter (fun c => (DAY_MAP c).isSome)).map (fun c => (r.section_id, c)))

theorem map_id_filterMap_eventOfRowCode (monday : Nat) (row : Row)
    (l : List Char) :
    ((l.filterMap (eventOfRowCode monday row)).map (fun e => e.id)) =
      ((l.filter (fun c => (DAY_MAP c).isSome)).map
        (fun c => row.section_id ++ "-" ++ String.singleton c)) := by
  induction l with
  | nil => rfl
  | cons c t ih =>
    cases hc : DAY_MAP c with
    | none =>
      simp [List.filterMap_cons, List.filter_cons, eventOfRowCode_none monday row c hc, hc, ih]
    | some w =>
      have he : ∃ e, eventOfRowCode monday row c = some e ∧
          e.id = row.section_id ++ "-" ++ String.singleton c := by
        unfold eventOfRowCode
        rw [hc]
        exact ⟨_, rfl, rfl⟩
      obtain ⟨e, he, hid⟩ := he
      simp [List.filterMap_cons, List.filter_cons, he, hc, ih, hid]

theorem encodeId_injective :
    Function.Injective (fun p : String × Char => p.1 ++ "-" ++ String.singleton p.2) := by
  intro p q h
  obtain ⟨s₁, c₁⟩ := p
  obtain ⟨s₂, c₂⟩ := q
  simp only at h
  have hd : (s₁ ++ "-" ++ String.singleton c₁).data =
      (s₂ ++ "-" ++ String.singleton c₂).data := by rw [h]
  simp only [String.data_append] at hd
  have h2 := List.append_inj' hd rfl
  have h3 := List.append_inj' h2.1 rfl
  have hs : s₁ = s₂ := by
    cases s₁
    cases s₂
    exact congrArg String.mk (by simpa using h3.1)
  have hc : c₁ = c₂ := by simpa using h2.2
  rw [hs, hc]

/-- C8 counterexample: the row with section identity `"7"` and day-pattern
code `"MM"` expands to two occurrences that share the identity `"7-M"`, so
the produced identities are not pairwise distinct. -/
theorem rowsToEvents_duplicate_id_counterexample :
    ((rowsToEvents 950400
      [{ section_id := "7", pattern_slot_id := "p7", time_slot_id := "t7"
         day_code := "MM", start_time := ⟨9, 0, some 0⟩, end_time := ⟨10, 0, some 0⟩
         course_code := "C", instructor_name := "I", room_name := "R"
         grade_level := 1 }]).map (fun e => e.id)) = ["7-M", "7-M"] ∧
    ¬ ((rowsToEvents 950400
      [{ section_id := "7", pattern_slot_id := "p7", time_slot_id := "t7"
         day_code := "MM", start_time := ⟨9, 0, some 0⟩, end_time := ⟨10, 0, some 0⟩
         course_code := "C", instructor_name := "I", room_name := "R"
         grade_level := 1 }]).map (fun e => e.id)).Nodup := by
  constructor
  · rfl
  · decide

/-- C8 (amended): every produced occurrence's identity is its section
identity concatenated with `"-"` and its day character, and the identities
are pairwise distinct whenever the (section identity, recognized day
character) pairs of the input are pairwise distinct — identity is unique per
section-day pair, duplicates arise exactly from repeated pairs. -/
theorem rowsToEvents_ids (now : Nat) (rows : List Row) :
    ((rowsToEvents now rows).map (fun e => e.id)) =
      (sectionDayPairs rows).map (fun p => p.1 ++ "-" ++ String.singleton p.2) ∧
    ((sectionDayPairs rows).Nodup →
      ((rowsToEvents now rows).map (fun e => e.id)).Nodup) := by
  have h1 : ((rowsToEvents now rows).map (fun e => e.id)) =
      (sectionDayPairs rows).map (fun p => p.1 ++ "-" ++ String.singleton p.2) := by
    induction rows with
    | nil => rfl
    | cons r t ih =>
      simp only [rowsToEvents, sectionDayPairs, List.flatMap_cons, List.map_append,
        List.map_map] at ih ⊢
      rw [ih]
      congr 1
      exact map_id_filterMap_eventOfRowCode (getWeekStart now) r (rowCodes r)
  refine ⟨h1, fun hnd => ?_⟩
  rw [h1]
  exact hnd.map encodeId_injective

/-- Witness for C8's distinctness conjunct: a `"MWF"` section together with
a `"TR"` section yields five pairwise-distinct occurrence identities. -/
theorem rowsToEvents_ids_witness :
    ((rowsToEvents 950400
      [{ section_id := "1", pattern_slot_id := "p1", time_slot_id := "ts1"
         day_code := "MWF", start_time := ⟨9, 0, some 0⟩, end_time := ⟨10, 0, some 0⟩
         course_code := "CS101", instructor_name := "Lee", room_name := "101"
         grade_level := 1 },
       { section_id := "2", pattern_slot_id := "p2", time_slot_id := "ts2"
         day_code := "TR", start_time := ⟨9, 30, some 0⟩, end_time := ⟨10, 30, some 0⟩
         course_code := "CS202", instructor_name := "Kim", room_name := "101"
         grade_level := 2 }]).map (fun e => e.id)).Nodup :=
  (rowsToEvents_ids 950400
    [{ section_id := "1", pattern_slot_id := "p1", time_slot_id := "ts1"
       day_code := "MWF", start_time := ⟨9, 0, some 0⟩, end_time := ⟨10, 0, some 0⟩
       course_code := "CS101", instructor_name := "Lee", room_name := "101"
       grade_level := 1 },
     { section_id := "2", pattern_slot_id := "p2", time_slot_id := "ts2"
       day_code := "TR", start_time := ⟨9, 30, some 0⟩, end_time := ⟨10, 30, some 0⟩
       course_code := "CS202", instructor_name := "Kim", room_name := "101"
       grade_level := 2 }]).2 (by decide)

/-! ### C9 : facet filtering -/

theorem facet_guard_iff (l : List String) (x : String) :
    (decide (l.length > 0) && !(l.contains x)) = false ↔ (l = [] ∨ x ∈ l) := by
  cases l with
  | nil => simp
  | cons a t =>
    simp
    tauto

theorem eventPasses_eq_true_iff (pf rf gf : List String) (e : Event) :
    eventPasses pf rf gf e = true ↔
      ((pf = [] ∨ e.professor ∈ pf) ∧ (rf = [] ∨ e.room ∈ rf) ∧
        (gf = [] ∨ e.gradeLevel ∈ gf)) := by
  have key : eventPasses pf rf gf e = true ↔
      ((decide (pf.length > 0) && !(pf.contains e.professor)) = false ∧
        (decide (rf.length > 0) && !(rf.contains e.room)) = false ∧
        (decide (gf.length > 0) && !(gf.contains e.gradeLevel)) = false) := by
    unfold eventPasses
    cases h1 : (decide (pf.length > 0) && !(pf.contains e.professor)) <;>
      cases h2 : (decide (rf.length > 0) && !(rf.contains e.room)) <;>
      cases h3 : (decide (gf.length > 0) && !(gf.contains e.gradeLevel)) <;>
      simp
  rw [key, facet_guard_iff, facet_guard_iff, facet_guard_iff]

theorem facet_clause_perm_iff (l l' : List String) (x : String)
    (hp : l.Perm l') : (l = [] ∨ x ∈ l) ↔ (l' = [] ∨ x ∈ l') := by
  constructor
  · rintro (rfl | hx)
    · exact Or.inl hp.symm.eq_nil
    · exact Or.inr (hp.mem_iff.mp hx)
  · rintro (rfl | hx)
    · exact Or.inl hp.eq_nil
    · exact Or.inr (hp.mem_iff.mpr hx)

/-- C9: an empty facet selection filters nothing and a non-empty one keeps
exactly the events whose facet value is selected; the three facets combine by
conjunction; the filtered list is unchanged when any selection list is
permuted, and permuting the event list permutes the output accordingly. -/
theorem filteredEvents_spec :
    (∀ pf rf gf (e : Event), eventPasses pf rf gf e = true ↔
      ((pf = [] ∨ e.professor ∈ pf) ∧ (rf = [] ∨ e.room ∈ rf) ∧
        (gf = [] ∨ e.gradeLevel ∈ gf))) ∧
    (∀ pf rf gf events (e : Event), e ∈ filteredEvents pf rf gf events ↔
      (e ∈ events ∧ (pf = [] ∨ e.professor ∈ pf) ∧ (rf = [] ∨ e.room ∈ rf) ∧
        (gf = [] ∨ e.gradeLevel ∈ gf))) ∧
    (∀ events, filteredEvents [] [] [] events = events) ∧
    (∀ pf pf' rf rf' gf gf' events, pf.Perm pf' → rf.Perm rf' → gf.Perm gf' →
      filteredEvents pf rf gf events = filteredEvents pf' rf' gf' events) ∧
    (∀ pf rf gf events events', events.Perm events' →
      (filteredEvents pf rf gf events).Perm (filteredEvents pf rf gf events')) := by
  refine ⟨eventPasses_eq_true_iff, ?_, ?_, ?_, ?_⟩
  · intro pf rf gf events e
    rw [filteredEvents, List.mem_filter, eventPasses_eq_true_iff]
  · intro events
    exact List.filter_eq_self.mpr fun e _ =>
      (eventPasses_eq_true_iff [] [] [] e).mpr ⟨Or.inl rfl, Or.inl rfl, Or.inl rfl⟩
  · intro pf pf' rf rf' gf gf' events hpf hrf hgf
    refine List.filter_congr fun e _ => ?_
    rw [Bool.eq_iff_iff, eventPasses_eq_true_iff, eventPasses_eq_true_iff]
    exact and_congr (facet_clause_perm_iff pf pf' e.professor hpf)
      (and_congr (facet_clause_perm_iff rf rf' e.room hrf)
        (facet_clause_perm_iff gf gf' e.gradeLevel hgf))
  · intro pf rf gf events events' h
    exact h.filter (eventPasses pf rf gf)

/-- Witness for C9's selection-order conjunct: the professor selection
`["Lee", "Kim"]` filters the sample events the same way as `["Kim", "Lee"]`. -/
theorem filteredEvents_spec_witness :
    filteredEvents ["Lee", "Kim"] [] [] [evA, evAW, evB] =
      filteredEvents ["Kim", "Lee"] [] [] [evA, evAW, evB] :=
  filteredEvents_spec.2.2.2.1 ["Lee", "Kim"] ["Kim", "Lee"] [] [] [] []
    [evA, evAW, evB] (by decide) (List.Perm.refl []) (List.Perm.refl [])

/-! ### C10 : occurrences on different weekdays never conflict -/

/-- An event whose interval lies inside calendar day `d`. -/
def withinDay (e : Event) (d : Nat) : Prop :=
  d * secPerDay ≤ e.start ∧ e.endT ≤ (d + 1) * secPerDay

/-- A row whose start time of day is earlier than its end time of day (both
denoting genuine times of day, i.e. below 24h). -/
def validTimes (row : Row) : Prop :=
  todSecs row.start_time < todSecs row.end_time ∧
    todSecs row.end_time < secPerDay

theorem eventOfRowCode_day_bounds (monday : Nat) (row : Row) (c : Char)
    (w : Nat) (e : Event) (hv : validTimes row) (hc : DAY_MAP c = some w)
    (he : eventOfRowCode monday row c = some e) :
    (dayOf monday + (w - 1)) * secPerDay ≤ e.start ∧
    e.start < e.endT ∧
    e.endT < (dayOf monday + (w - 1) + 1) * secPerDay ∧
    dayOf e.start = dayOf monday + (w - 1) := by
  unfold eventOfRowCode at he
  rw [hc] at he
  simp only [Option.some.injEq] at he
  subst he
  unfold validTimes at hv
  dsimp only
  unfold setHours dayOf todSecs secPerDay at *
  refine ⟨?_, ?_, ?_, ?_⟩ <;> omega

theorem overlap_false_of_diff_weekday (monday : Nat) (r₁ r₂ : Row)
    (c₁ c₂ : Char) (w₁ w₂ : Nat) (e₁ e₂ : Event)
    (hv₁ : validTimes r₁) (hv₂ : validTimes r₂)
    (hc₁ : DAY_MAP c₁ = some w₁) (hc₂ : DAY_MAP c₂ = some w₂) (hw : w₁ ≠ w₂)
    (he₁ : eventOfRowCode monday r₁ c₁ = some e₁)
    (he₂ : eventOfRowCode monday r₂ c₂ = some e₂) :
    timesOverlap e₁.start e₁.endT e₂.start e₂.endT = false := by
  obtain ⟨h1a, h1b, h1c, _⟩ := eventOfRowCode_day_bounds monday r₁ c₁ w₁ e₁ hv₁ hc₁ he₁
  obtain ⟨h2a, h2b, h2c, _⟩ := eventOfRowCode_day_bounds monday r₂ c₂ w₂ e₂ hv₂ hc₂ he₂
  obtain ⟨hw₁, _⟩ := DAY_MAP_bounds c₁ w₁ hc₁
  obtain ⟨hw₂, _⟩ := DAY_MAP_bounds c₂ w₂ hc₂
  apply timesOverlap_eq_false_of
  unfold secPerDay at h1a h1c h2a h2c
  omega

theorem withinDay_no_conflict (m o : Event) (dm dn : Nat)
    (hm : withinDay m dm) (ho : withinDay o dn) (hne : dm ≠ dn) :
    timesOverlap m.start m.endT o.start o.endT = false ∧ entriesFor m o = [] := by
  have hov : timesOverlap m.start m.endT o.start o.endT = false := by
    apply timesOverlap_eq_false_of
    unfold withinDay secPerDay at hm ho
    omega
  exact ⟨hov, entriesFor_eq_nil_of_no_overlap m o hov⟩

theorem sibling_no_conflict (monday : Nat) (r : Row) (c₁ c₂ : Char)
    (w₁ w₂ : Nat) (e₁ e₂ : Event) (hv : validTimes r)
    (hc₁ : DAY_MAP c₁ = some w₁) (hc₂ : DAY_MAP c₂ = some w₂)
    (he₁ : eventOfRowCode monday r c₁ = some e₁)
    (he₂ : eventOfRowCode monday r c₂ = some e₂) :
    entriesFor e₁ e₂ = [] := by
  by_cases hw : w₁ = w₂
  · subst hw
    have hcc : c₁ = c₂ := DAY_MAP_inj c₁ c₂ w₁ hc₁ hc₂
    subst hcc
    rw [he₁] at he₂
    have hee : e₁ = e₂ := by
      injection he₂
    subst hee
    simp [entriesFor]
  · exact entriesFor_eq_nil_of_no_overlap e₁ e₂
      (overlap_false_of_diff_weekday monday r r c₁ c₂ w₁ w₂ e₁ e₂ hv hv hc₁ hc₂ hw he₁ he₂)

/-- C10: two occurrences expanded (for the same week anchor) from rows with
a genuine start-before-end time of day that land on different weekdays never
satisfy the overlap predicate; more generally any event whose interval stays
inside one calendar day — such as a day-preserving moved occurrence — draws
no conflict entry from an occurrence lying inside a different day; in
particular the sibling occurrences a multi-day section shares its time-slot
identity with (same row, any two recognized day characters) never appear in
its conflict list. -/
theorem expansion_no_cross_day_conflicts :
    (∀ (monday : Nat) (r₁ r₂ : Row) (c₁ c₂ : Char) (w₁ w₂ : Nat) (e₁ e₂ : Event),
      validTimes r₁ → validTimes r₂ →
      DAY_MAP c₁ = some w₁ → DAY_MAP c₂ = some w₂ → w₁ ≠ w₂ →
      eventOfRowCode monday r₁ c₁ = some e₁ →
      eventOfRowCode monday r₂ c₂ = some e₂ →
      timesOverlap e₁.start e₁.endT e₂.start e₂.endT = false) ∧
    (∀ (m o : Event) (dm dn : Nat), withinDay m dm → withinDay o dn → dm ≠ dn →
      timesOverlap m.start m.endT o.start o.endT = false ∧ entriesFor m o = []) ∧
    (∀ (monday : Nat) (r : Row) (c₁ c₂ : Char) (w₁ w₂ : Nat) (e₁ e₂ : Event),
      validTimes r →
      DAY_MAP c₁ = some w₁ → DAY_MAP c₂ = some w₂ →
      eventOfRowCode monday r c₁ = some e₁ →
      eventOfRowCode monday r c₂ = some e₂ →
      entriesFor e₁ e₂ = []) :=
  ⟨fun monday r₁ r₂ c₁ c₂ w₁ w₂ e₁ e₂ hv₁ hv₂ hc₁ hc₂ hw he₁ he₂ =>
    overlap_false_of_diff_weekday monday r₁ r₂ c₁ c₂ w₁ w₂ e₁ e₂ hv₁ hv₂ hc₁ hc₂ hw he₁ he₂,
  withinDay_no_conflict,
  fun monday r c₁ c₂ w₁ w₂ e₁ e₂ hv hc₁ hc₂ he₁ he₂ =>
    sibling_no_conflict monday r c₁ c₂ w₁ w₂ e₁ e₂ hv hc₁ hc₂ he₁ he₂⟩

/-- Witness for C10 at a concrete input: the Monday event `evA` (inside day
11) draws no conflict entry from its Wednesday sibling `evAW` (inside day
13), and their intervals do not overlap. -/
theorem expansion_no_cross_day_conflicts_witness :
    timesOverlap evA.start evA.endT evAW.start evAW.endT = false ∧
      entriesFor evA evAW = [] :=
  expansion_no_cross_day_conflicts.2.1 evA evAW 11 13
    ⟨by decide, by decide⟩ ⟨by decide, by decide⟩ (by decide)

end ClassScheduler
